import Mathlib

/-!
Shallow embedding of the chat-bot message engine in `src/server/src/irc.rs`
(OxidizeBot / setmod): the per-channel feature model, the moderation pipeline
(`should_be_deleted`, `test_bad_words`, `has_bad_link`), the command router
(`process_command` and its handlers), tag extraction and message deletion, and
the per-message dispatch (`MessageHandler::handle`, PRIVMSG case).

Conventions of the embedding:
- external collaborators (twitch API, music player, template renderer,
  notifier, persistence for commands / counters / bad words) are either
  oracle functions carried in an environment record `Env`, or explicit
  components of the mutable state `St`;
- effectful code is modelled in the monad `M`, an explicit state-and-writer
  monad: a computation maps a state to a result (`Except Er`), the new state,
  and the list of emitted effects (outbound IRC messages, player directives,
  spawned background tasks);
- machine integers: `u32` volumes are `Nat` with explicit saturation at
  `2 ^ 32 - 1`; counter counts are `Int`.
-/

/-- The `Feature` enum of `irc.rs` (closed enumeration of channel features). -/
inductive Feature where
  | Song
  | Command
  | Counter
  | AfterStream
  | BadWords
  | UrlWhitelist
  | Admin
deriving DecidableEq, Repr, BEq

/-- `FeatureSet = fixed_map::Set<Feature>`: a set of features, embedded as a
list queried by membership. -/
def FeatureSet := List Feature
deriving DecidableEq, BEq

/-- Membership test of the feature set (`FeatureSet::contains`). -/
def FeatureSet.contains (fs : FeatureSet) (f : Feature) : Bool :=
  List.elem f fs

/-- The by-channel feature registry `Features` of `irc.rs` (a map from channel
name to `FeatureSet`). The Rust field is also called `features`; here the
backing map is called `map` because Lean does not allow a field and a method of
the same name. -/
structure Features where
  map : List (String × FeatureSet)

/-- `Features::features`: the feature set for the given channel, or the empty
set when the channel is unknown. -/
def Features.features (self : Features) (channel : String) : FeatureSet :=
  (self.map.lookup channel).getD []

/-- Modelled from the spec: `utils::Words` (not under `src/`), the whitespace
tokenizer of a command line with a take-the-remainder-verbatim accessor
(spec section 6: command convention). -/
structure Words where
  chars : List Char
deriving DecidableEq, Repr

/-- Build a tokenizer over a message (`utils::Words::new`). -/
def Words.new (s : String) : Words := ⟨s.data⟩

/-- Modelled from the spec: the next whitespace-delimited token, together with
the rest of the iterator. -/
def Words.next (w : Words) : Option String × Words :=
  let t := w.chars.dropWhile Char.isWhitespace
  match t with
  | [] => (none, ⟨[]⟩)
  | _ =>
    (some (String.mk (t.takeWhile (fun c => !c.isWhitespace))),
     ⟨t.dropWhile (fun c => !c.isWhitespace)⟩)

/-- Modelled from the spec: the remainder of the line, verbatim except for
leading whitespace (`utils::Words::rest`). -/
def Words.rest (w : Words) : String :=
  String.mk (w.chars.dropWhile Char.isWhitespace)

/-- Split a character list into whitespace-separated words. -/
def splitWsAux : List Char → List Char → List (List Char)
  | [], acc => if acc.isEmpty then [] else [acc.reverse]
  | c :: cs, acc =>
    if c.isWhitespace then
      if acc.isEmpty then splitWsAux cs [] else acc.reverse :: splitWsAux cs []
    else splitWsAux cs (c :: acc)

/-- Whitespace-separated tokens of a string. -/
def splitWs (s : String) : List String :=
  (splitWsAux s.data []).map String.mk

/-- Trim non-alphanumeric characters from both ends of a token. -/
def trimTok (s : String) : String :=
  String.mk (((s.data.dropWhile (fun c => !c.isAlphanum)).reverse.dropWhile
    (fun c => !c.isAlphanum)).reverse)

/-- Modelled from the spec: `utils::TrimmedWords` (not under `src/`) —
tokenize a message into trimmed words (spec section 4.4 step 2), embedded as
whitespace splitting followed by trimming non-alphanumeric ends and dropping
empty tokens. -/
def trimmedWords (s : String) : List String :=
  ((splitWs s).map trimTok).filter (fun t => !t.data.isEmpty)

/-- A parsed URL as consumed by `has_bad_link`: only the optional host string
(`url::Url::host_str`) is relevant. -/
structure Url where
  host : Option String
deriving DecidableEq, Repr

/-- Prefix test on character lists. -/
def isLeading : List Char → List Char → Bool
  | [], _ => true
  | _ :: _, [] => false
  | p :: ps, c :: cs => p == c && isLeading ps cs

/-- Rust `str::starts_with`, by character lists (kernel-reducible, unlike
`String.startsWith`). -/
def strStartsWith (s p : String) : Bool := isLeading p.data s.data

/-- Drop the first `n` characters of a string (Rust byte slicing `&s[n..]`
on the ASCII prefixes used here). -/
def strDrop (s : String) (n : Nat) : String := String.mk (s.data.drop n)

/-- Modelled from the spec: parse one URL-like token (scheme `http://` or
`https://`); the host is the authority part up to a delimiter, absent when
empty. -/
def parseUrlToken (t : String) : Option Url :=
  let rest? : Option String :=
    if strStartsWith t "http://" then some (strDrop t 7)
    else if strStartsWith t "https://" then some (strDrop t 8)
    else none
  rest?.map (fun rest =>
    let h := rest.data.takeWhile
      (fun c => c ≠ '/' && c ≠ ':' && c ≠ '?' && c ≠ '#')
    ⟨if h.isEmpty then none else some (String.mk h)⟩)

/-- Modelled from the spec: `utils::Urls` (not under `src/`) — extract the
URL-like tokens of a message (spec section 4.4 step 3). -/
def urlsOf (message : String) : List Url :=
  (splitWs message).filterMap parseUrlToken

/-- Decimal digits to a natural number. -/
def digitsToNat (l : List Char) : Nat :=
  l.foldl (fun acc c => acc * 10 + (c.toNat - '0'.toNat)) 0

/-- Rust `str::parse::<u32>`: optional leading plus sign, then decimal digits,
rejecting the empty string and values outside `u32`. -/
def parseU32 (s : String) : Option Nat :=
  let l := match s.data with
    | '+' :: rest => rest
    | l => l
  if l ≠ [] ∧ l.all Char.isDigit ∧ digitsToNat l < 2 ^ 32 then
    some (digitsToNat l)
  else none

/-- Rust `str::parse::<usize>` (64-bit). -/
def parseUsize (s : String) : Option Nat :=
  let l := match s.data with
    | '+' :: rest => rest
    | l => l
  if l ≠ [] ∧ l.all Char.isDigit ∧ digitsToNat l < 2 ^ 64 then
    some (digitsToNat l)
  else none

/-- Rust `u32::saturating_add`. -/
def satAddU32 (a b : Nat) : Nat :=
  min (a + b) (2 ^ 32 - 1)

/-- An IRC message tag (`irc::proto::message::Tag`). -/
structure Tag where
  name : String
  value : Option String
deriving DecidableEq, Repr

/-- The message commands `MessageHandler::handle` distinguishes; only PRIVMSG
carries behavior relevant to the verified claims, all other commands are
logged and ignored. -/
inductive IrcCommand where
  | PRIVMSG (source message : String)
  | otherCmd
deriving DecidableEq, Repr

/-- A transport message as consumed by the handler: source nickname, tag set
and command. -/
structure Message where
  sourceNickname : Option String
  tags : Option (List Tag)
  command : IrcCommand
deriving DecidableEq, Repr

/-- The reply target of a message, as exposed by the irc crate
(`Message::response_target`): for a PRIVMSG addressed to a channel the channel
itself, otherwise the sender's nickname. -/
def Message.response_target (m : Message) : Option String :=
  match m.command with
  | .PRIVMSG target _ => if strStartsWith target "#" then some target else m.sourceNickname
  | .otherCmd => none

/-- The `Tags` struct of `irc.rs`: the opaque message identifier used for
deletion. -/
structure Tags where
  message_id : Option String
deriving DecidableEq, Repr

/-- `MessageHandler::tags`: extract the `id` tag from a message (the last
valued `id` tag wins, mirroring the `for` loop). Named `extractTags` because
`Message.tags` is already the field holding the raw tag list. -/
def extractTags (m : Message) : Tags :=
  let message_id :=
    match m.tags with
    | some ts =>
      ts.foldl (fun acc t =>
        match t.value with
        | some value => if t.name = "id" then some value else acc
        | none => acc) none
    | none => none
  ⟨message_id⟩

/-- `TemplateVars` of `irc.rs`: rendering context {sender name, reply target}. -/
structure TemplateVars where
  name : String
  target : String
deriving DecidableEq, Repr

/-- `CounterVars` of `irc.rs`: rendering context {sender name, reply target,
count}. -/
structure CounterVars where
  name : String
  target : String
  count : Int
deriving DecidableEq, Repr

/-- A bad-word filter entry as returned by the words collaborator
(`words::Word`): the word and the optional reason template (stored as its
source text; rendering is the template collaborator in `Env`). -/
structure Word where
  word : String
  why : Option String
deriving DecidableEq, Repr

/-- A stored custom command (commands collaborator entry). -/
structure CmdEntry where
  target : String
  name : String
  text : String
deriving DecidableEq, Repr

/-- A stored counter (counters collaborator entry). -/
structure CtrEntry where
  target : String
  name : String
  text : String
  count : Int
deriving DecidableEq, Repr

/-- A queue item of the music player (`player::Item`): requesting user and its
rendered description (`Item::what`). -/
structure Item where
  user : Option String
  what : String
deriving DecidableEq, Repr

/-- `StreamInfo` of `irc.rs`: title, optional game, optional live-start time
(seconds). -/
structure StreamInfo where
  title : String
  game : Option String
  started_at : Option Int
deriving DecidableEq, Repr

/-- Errors are `failure::Error` values, embedded as their message strings. -/
def Er := String
deriving DecidableEq, Repr

/-- The mutable state touched by one message dispatch: the persistence
collaborators (balances, afterstream reminders, custom commands, counters,
bad words). Modelled from the spec: these stores live behind the db /
commands / counters / words collaborators (spec section 6), whose modules are
not under `src/`. -/
structure St where
  balances : List (String × Int)
  afterstreams : List (String × String)
  commandsDb : List CmdEntry
  countersDb : List CtrEntry
  badWordsDb : List (String × Option String)
deriving DecidableEq, Repr

/-- Observable effects of one dispatch: outbound messages through the
rate-limited sender, notifier pings, music-player directives, and
fire-and-forget background tasks spawned onto the thread pool. -/
inductive Effect where
  | privmsg (target content : String)
  | notifyPing
  | playerVolume (v : Nat)
  | playerSkip
  | playerToggle
  | playerPlay
  | playerPause
  | playerRemoveLast
  | playerRemoveLastByUser (u : String)
  | spawnSongRequest (userName query : String)
  | spawnUpdateTitle (channelId title : String)
  | spawnUpdateGame (channelId game : String)
deriving DecidableEq, Repr

/-- The effect monad of the embedding: explicit state passing plus an effect
trace; `Except Er` is the `Result<_, failure::Error>` of the source. -/
def M (α : Type) : Type :=
  St → Except Er α × St × List Effect

/-- Monadic bind for `M`: sequence two computations, threading the state and
concatenating effect traces; an error short-circuits (Rust `?`). -/
def M.bind {α β : Type} (x : M α) (f : α → M β) : M β := fun st =>
  match x st with
  | (Except.ok a, st1, e1) =>
    match f a st1 with
    | (r, st2, e2) => (r, st2, e1 ++ e2)
  | (Except.error e, st1, e1) => (Except.error e, st1, e1)

/-- Monadic pure for `M`. -/
def M.pure {α : Type} (a : α) : M α := fun st => (Except.ok a, st, [])

instance : Monad M where
  pure := M.pure
  bind := M.bind

/-- Read the current state. -/
def getSt : M St := fun st => (Except.ok st, st, [])

/-- Update the state. -/
def modifySt (f : St → St) : M Unit := fun st => (Except.ok (), f st, [])

/-- Emit one effect. -/
def emit (e : Effect) : M Unit := fun st => (Except.ok (), st, [e])

/-- Fail with an error (`failure::bail!` / `format_err!`). -/
def throwM {α : Type} (e : Er) : M α := fun st => (Except.error e, st, [])

/-- Lift a collaborator result into `M` (Rust `?` on a returned `Result`). -/
def liftEx {α : Type} (x : Except Er α) : M α := fun st => (x, st, [])

/-- Lift a pure state-reading computation with effects into `M`. -/
def liftRead {α : Type} (f : St → α × List Effect) : M α := fun st =>
  (Except.ok (f st).1, st, (f st).2)

theorem bind_apply {α β : Type} (x : M α) (f : α → M β) (st : St) :
    (x >>= f) st = M.bind x f st := rfl

theorem pure_apply {α : Type} (a : α) (st : St) :
    (pure a : M α) st = (Except.ok a, st, []) := rfl

/-- The music player's command/event surface as consumed by `handle_song`
(`player::PlayerClient`); an oracle of current values and call results, the
calls themselves being recorded as effects. -/
structure PlayerClient where
  listFn : Nat → List Item
  current : Option Item
  currentVolume : Nat
  removeLast : Except Er (Option Item)
  removeLastByUser : String → Except Er (Option Item)
  volumeRes : Except Er Unit
  skipRes : Except Er Unit
  toggleRes : Except Er Unit
  playRes : Except Er Unit
  pauseRes : Except Er Unit
  queueLength : Nat × Nat

/-- The per-channel configuration consumed by `handle`: the alias table
(spec section 4.3 — given the word sequence of a message, optionally a
substitute string). -/
structure ChannelCfg where
  aliases : String → Option String

/-- The read-only environment of `MessageHandler`: moderators, whitelisted
hosts, per-channel currencies / players / stream infos / features / configs,
and the oracle collaborators (template rendering, human-time formatting,
notifier result, current time). -/
structure Env where
  moderators : List String
  whitelistedHosts : List String
  currencies : List (String × String)
  players : List (String × PlayerClient)
  streamInfos : List (String × Option StreamInfo)
  featuresMap : Features
  configs : List (String × ChannelCfg)
  whyRender : String → TemplateVars → Except Er String
  renderTemplate : String → TemplateVars → Except Er String
  renderCounter : String → CounterVars → Except Er String
  humanTime : Int → String
  notifierRes : Except Er Unit
  now : Int

/-- The per-message `User` context: sender name and reply target (the sender
handle is global in this embedding, so it is not a field). -/
structure User where
  name : String
  target : String
deriving DecidableEq, Repr

/-- `User::respond`: reply to the user, prefixed with the sender's name. -/
def User.respond (user : User) (m : String) : M Unit :=
  emit (Effect.privmsg user.target (user.name ++ " -> " ++ m))

/-- `MessageHandler::as_user`: build the user context from the message's
source nickname and response target. -/
def as_user (m : Message) : M User :=
  match m.sourceNickname with
  | none => throwM "expected user info"
  | some name =>
    match m.response_target with
    | none => throwM "expected user info"
    | some target => pure { name := name, target := target }

/-- `MessageHandler::is_moderator`. -/
def is_moderator (env : Env) (user : User) : Bool :=
  env.moderators.contains user.name

/-- `MessageHandler::check_moderator`: succeed for a moderator; otherwise emit
the scripted refusal and fail. -/
def check_moderator (env : Env) (user : User) : M Unit := fun st =>
  if is_moderator env user then (Except.ok (), st, [])
  else
    (Except.error "moderator access required for action", st,
     [Effect.privmsg user.target
        ("Do you think this is a democracy " ++ user.name ++ "? LUL")])

/-- Modelled from the spec: the words collaborator's tester
(`words::Words::tester` / `Tester::test`, module not under `src/`) — test one
word against the stored filter entries. -/
def testWord (db : List (String × Option String)) (w : String) : Option Word :=
  (db.find? (fun e => e.1 == w)).map (fun e => ⟨e.1, e.2⟩)

/-- First filter hit over a list of words (the loop of `test_bad_words`). -/
def firstTest (db : List (String × Option String)) : List String → Option Word
  | [] => none
  | w :: ws =>
    match testWord db w with
    | some x => some x
    | none => firstTest db ws

/-- `MessageHandler::test_bad_words`: scan the trimmed words of the message
and return the first filter hit, if any. -/
def test_bad_words (db : List (String × Option String)) (message : String) :
    Option Word :=
  firstTest db (trimmedWords message)

/-- The body of `has_bad_link`'s loop over a list of parsed URLs: true when
some URL exposes a host absent from the whitelist. -/
def hasBadLinkUrls (whitelist : List String) : List Url → Bool
  | [] => false
  | u :: us =>
    match u.host with
    | some host => if !whitelist.contains host then true else hasBadLinkUrls whitelist us
    | none => hasBadLinkUrls whitelist us

/-- `MessageHandler::has_bad_link`: whether the message contains a URL whose
host is not whitelisted. -/
def has_bad_link (env : Env) (message : String) : Bool :=
  hasBadLinkUrls env.whitelistedHosts (urlsOf message)

/-- `MessageHandler::should_be_deleted`: the moderation pipeline. Pure apart
from the optional warning, so it returns the decision and the emitted
effects directly; the state is only read (the bad-words store). -/
def should_be_deleted (env : Env) (features : FeatureSet) (m : Message)
    (message : String) (st : St) : Bool × List Effect :=
  let user := m.sourceNickname
  -- Moderators can say whatever they want.
  if (user.map (fun u => env.moderators.contains u)).getD false then
    (false, [])
  else
    match
      (if features.contains Feature.BadWords then
        test_bad_words st.badWordsDb message
      else none) with
    | some word =>
      let warn :=
        match word.why, user, m.response_target with
        | some why, some u, some target =>
          match env.whyRender why { name := u, target := target } with
          | Except.ok why => [Effect.privmsg target why]
          | Except.error _ => []
        | _, _, _ => []
      (true, warn)
    | none =>
      if features.contains Feature.UrlWhitelist then
        (has_bad_link env message, [])
      else
        (false, [])

/-- `MessageHandler::delete_message`: a no-op when the message carries no
identifier tag, otherwise the moderation directive addressed to the source. -/
def delete_message (source : String) (tags : Tags) : M Unit :=
  match tags.message_id with
  | none => pure ()
  | some message_id => emit (Effect.privmsg source ("/delete " ++ message_id))

/-- Modelled from the spec: `db::Database::balance_of` (persistence shim, not
under `src/`) — the stored balance of a user, keyed by name as in the source
call site. -/
def balance_of (st : St) (name : String) : Option Int :=
  st.balances.lookup name

/-- Modelled from the spec: `db::Database::insert_afterstream` — append a
reminder record. -/
def insert_afterstream (name text : String) : M Unit :=
  modifySt (fun st => { st with afterstreams := st.afterstreams ++ [(name, text)] })

/-- Modelled from the spec: `commands::Commands::get`. -/
def commandsGet (db : List CmdEntry) (target name : String) : Option CmdEntry :=
  db.find? (fun e => e.target == target && e.name == name)

/-- Modelled from the spec: `commands::Commands::list`. -/
def commandsList (db : List CmdEntry) (target : String) : List CmdEntry :=
  db.filter (fun e => e.target == target)

/-- Modelled from the spec: `commands::Commands::edit` — insert or update the
named entry. -/
def commandsEdit (target name text : String) : M Unit :=
  modifySt (fun st =>
    { st with commandsDb :=
        if (commandsGet st.commandsDb target name).isSome then
          st.commandsDb.map (fun e =>
            if e.target == target && e.name == name then { e with text := text } else e)
        else st.commandsDb ++ [⟨target, name, text⟩] })

/-- Modelled from the spec: `commands::Commands::delete` — remove the named
entry, reporting whether it existed. -/
def commandsDelete (target name : String) : M Bool := fun st =>
  (Except.ok (commandsGet st.commandsDb target name).isSome,
   { st with commandsDb :=
       st.commandsDb.filter (fun e => !(e.target == target && e.name == name)) },
   [])

/-- Modelled from the spec: `counters::Counters::get`. -/
def countersGet (db : List CtrEntry) (target name : String) : Option CtrEntry :=
  db.find? (fun e => e.target == target && e.name == name)

/-- Modelled from the spec: `counters::Counters::list`. -/
def countersList (db : List CtrEntry) (target : String) : List CtrEntry :=
  db.filter (fun e => e.target == target)

/-- Modelled from the spec: `counters::Counters::edit`. -/
def countersEdit (target name text : String) : M Unit :=
  modifySt (fun st =>
    { st with countersDb :=
        if (countersGet st.countersDb target name).isSome then
          st.countersDb.map (fun e =>
            if e.target == target && e.name == name then { e with text := text } else e)
        else st.countersDb ++ [⟨target, name, text, 0⟩] })

/-- Modelled from the spec: `counters::Counters::delete`. -/
def countersDelete (target name : String) : M Bool := fun st =>
  (Except.ok (countersGet st.countersDb target name).isSome,
   { st with countersDb :=
       st.countersDb.filter (fun e => !(e.target == target && e.name == name)) },
   [])

/-- Modelled from the spec: `counters::Counters::increment` — atomically bump
the named counter, so that a subsequent `count()` observes the new value
(spec section 4.5: render with the new count). -/
def countersIncrement (target name : String) : M Unit :=
  modifySt (fun st =>
    { st with countersDb :=
        st.countersDb.map (fun e =>
          if e.target == target && e.name == name then { e with count := e.count + 1 } else e) })

/-- Modelled from the spec: `words::Words::edit` — insert or update a filter
entry with an optional reason. -/
def badWordsEdit (word : String) (why : Option String) : M Unit :=
  modifySt (fun st =>
    { st with badWordsDb :=
        if (st.badWordsDb.find? (fun e => e.1 == word)).isSome then
          st.badWordsDb.map (fun e => if e.1 == word then (e.1, why) else e)
        else st.badWordsDb ++ [(word, why)] })

/-- Modelled from the spec: `words::Words::delete` — remove a filter entry,
reporting whether it existed. -/
def badWordsDelete (word : String) : M Bool := fun st =>
  (Except.ok (st.badWordsDb.find? (fun e => e.1 == word)).isSome,
   { st with badWordsDb := st.badWordsDb.filter (fun e => !(e.1 == word)) },
   [])

/-- Insertion sort of strings (`Vec::sort` on the listed names). -/
def sortStr : List String → List String
  | [] => []
  | x :: xs => insertStr x (sortStr xs)
where
  insertStr (x : String) : List String → List String
    | [] => [x]
    | y :: ys => if x ≤ y then x :: y :: ys else y :: insertStr x ys

/-- `MessageHandler::handle_bad_word`: the `!badword` administration menu. -/
def handle_bad_word (env : Env) (user : User) (it : Words) : M Unit :=
  match it.next with
  | (some "edit", it) => do
    check_moderator env user
    match it.next with
    | (none, _) => throwM "expected word"
    | (some word, it) =>
      let why := match it.rest with
        | "" => none
        | other => some other
      badWordsEdit word why
      user.respond "Bad word edited"
  | (some "delete", it) => do
    check_moderator env user
    match it.next with
    | (none, _) => throwM "expected word"
    | (some word, _) => do
      let existed ← badWordsDelete word
      if existed then user.respond "Bad word removed."
      else user.respond "Bad word did not exist."
  | (none, _) =>
    user.respond "!badword is a word filter, removing unwanted messages."
  | (some _, _) =>
    user.respond "Expected: edit, or delete."

/-- `MessageHandler::display_songs`. -/
def display_songs (user : User) (has_more : Option Nat) (items : List Item) :
    M Unit :=
  let lines := (items.enum).map (fun p =>
    match p.2.user with
    | some u => "#" ++ toString p.1 ++ ": " ++ p.2.what ++ " (" ++ u ++ ")"
    | none => "#" ++ toString p.1 ++ ": " ++ p.2.what)
  if lines.isEmpty then
    user.respond "Song queue is empty."
  else
    match has_more with
    | some more =>
      user.respond (String.intercalate "; " lines ++ " ... and " ++ toString more ++ " more.")
    | none =>
      user.respond (String.intercalate "; " lines ++ ".")

/-- The sign prefix split of the `!song volume` argument (`other.chars().next()`
match in `handle_song`). -/
def signSplit (s : String) : Option Bool × String :=
  match s.data with
  | '+' :: rest => (some true, String.mk rest)
  | '-' :: rest => (some false, String.mk rest)
  | _ => (none, s)

/-- `MessageHandler::handle_song`: the `!song` menu. Player calls are recorded
as effects with their results drawn from the player oracle; the `request`
sub-command spawns a fire-and-forget background task, recorded as a spawn
effect. -/
def handle_song (env : Env) (user : User) (it : Words) : M Unit :=
  match env.players.lookup user.target with
  | none => pure ()
  | some player =>
    match it.next with
    | (some sub, it1) =>
      if sub = "mine" then pure ()
      else if sub = "list" then do
        let limit ←
          match it1.next with
          | (some n, _) => do
            check_moderator env user
            match parseUsize n with
            | some k => pure k
            | none => pure 3
          | (none, _) => pure 3
        let items := player.listFn (limit + 1)
        let has_more := if items.length > limit then some (items.length - limit) else none
        display_songs user has_more (items.take limit)
      else if sub = "current" then
        match player.current with
        | some item =>
          match item.user with
          | some name =>
            user.respond ("Current song: " ++ item.what ++ ", requested by " ++ name ++ ".")
          | none => user.respond ("Current song: " ++ item.what)
        | none => user.respond "No song :("
      else if sub = "delete" then do
        let removed ←
          match it1.next with
          | (some sub2, it2) =>
            if sub2 = "last" then
              match it2.next with
              | (some last_user, _) => do
                let last_user := last_user.toLower
                check_moderator env user
                emit (Effect.playerRemoveLastByUser last_user)
                liftEx (player.removeLastByUser last_user)
              | (none, _) => do
                check_moderator env user
                emit Effect.playerRemoveLast
                liftEx player.removeLast
            else if sub2 = "mine" then do
              emit (Effect.playerRemoveLastByUser user.name)
              liftEx (player.removeLastByUser user.name)
            else do
              user.respond "Expected: last, last <user>, or mine"
              throwM "bad command"
          | (none, _) => do
            user.respond "Expected: last, last <user>, or mine"
            throwM "bad command"
        match removed with
        | none => user.respond "No song removed, sorry :("
        | some item => user.respond ("Removed: " ++ item.what ++ "!")
      else if sub = "volume" then
        match it1.next with
        | (some other, _) => do
          check_moderator env user
          let p := signSplit other
          match parseU32 p.2 with
          | none => do
            user.respond "expected numeric argument"
            throwM "bad command"
          | some n => do
            let argument :=
              match p.1 with
              | some true => satAddU32 player.currentVolume n
              | some false => player.currentVolume - n
              | none => n
            let argument := min 100 argument
            user.respond ("Volume set to " ++ toString argument ++ ".")
            emit (Effect.playerVolume argument)
            liftEx player.volumeRes
        | (none, _) =>
          user.respond ("Current volume: " ++ toString player.currentVolume ++ ".")
      else if sub = "skip" then do
        check_moderator env user
        emit Effect.playerSkip
        liftEx player.skipRes
      else if sub = "request" then do
        let q := it1.rest
        if (it1.next).1.isSome then
          emit (Effect.spawnSongRequest user.name q)
        else do
          user.respond "expected: !song request <id>|<text>"
          throwM "bad command"
      else if sub = "toggle" then do
        check_moderator env user
        emit Effect.playerToggle
        liftEx player.toggleRes
      else if sub = "play" then do
        check_moderator env user
        emit Effect.playerPlay
        liftEx player.playRes
      else if sub = "pause" then do
        check_moderator env user
        emit Effect.playerPause
        liftEx player.pauseRes
      else if sub = "length" then
        match player.queueLength with
        | (0, _) => user.respond "No songs in queue :("
        | (1, seconds) =>
          user.respond ("One song in queue with " ++ env.humanTime (Int.ofNat seconds) ++ " of play time.")
        | (count, seconds) =>
          user.respond (toString count ++ " songs in queue with " ++ env.humanTime (Int.ofNat seconds) ++ " of play time.")
      else
        user.respond "Expected: skip, request, or toggle."
    | (none, _) =>
      user.respond "Expected: skip, request, or toggle."

/-- `MessageHandler::handle_command`: the `!command` administration menu. -/
def handle_command (env : Env) (user : User) (it : Words) : M Unit :=
  match it.next with
  | (some "list", _) => do
    let st ← getSt
    let names := (commandsList st.commandsDb user.target).map (fun c => "!" ++ c.name)
    if names.isEmpty then
      user.respond "No custom commands."
    else
      user.respond ("Custom commands: " ++ String.intercalate ", " (sortStr names))
  | (some "edit", it) => do
    check_moderator env user
    match it.next with
    | (some name, it) => do
      commandsEdit user.target name it.rest
      user.respond "Edited command."
    | (none, _) => do
      user.respond "Expected name."
      throwM "bad command"
  | (some "delete", it) => do
    check_moderator env user
    match it.next with
    | (some name, _) => do
      let existed ← commandsDelete user.target name
      if existed then user.respond ("Deleted command `" ++ name ++ "`.")
      else user.respond "No such command."
    | (none, _) => do
      user.respond "Expected name."
      throwM "bad command"
  | _ =>
    user.respond "Expected: list, edit, or delete."

/-- `MessageHandler::handle_counter`: the `!counter` administration menu. -/
def handle_counter (env : Env) (user : User) (it : Words) : M Unit :=
  match it.next with
  | (some "list", _) => do
    let st ← getSt
    let names := (countersList st.countersDb user.target).map (fun c => "!" ++ c.name)
    if names.isEmpty then
      user.respond "No custom counters."
    else
      user.respond ("Custom counters: " ++ String.intercalate ", " (sortStr names))
  | (some "edit", it) => do
    check_moderator env user
    match it.next with
    | (some name, it) => do
      countersEdit user.target name it.rest
      user.respond "Edited command."
    | (none, _) => do
      user.respond "Expected name."
      throwM "bad command"
  | (some "delete", it) => do
    check_moderator env user
    match it.next with
    | (some name, _) => do
      let existed ← countersDelete user.target name
      if existed then user.respond ("Deleted command `" ++ name ++ "`.")
      else user.respond "No such command."
    | (none, _) => do
      user.respond "Expected name."
      throwM "bad command"
  | _ =>
    user.respond "Expected: list, edit, or delete."

/-- `MessageHandler::handle_uptime`: report the time the stream has been
live, from the shared stream info cell. -/
def handle_uptime (env : Env) (user : User) : M Unit :=
  let started_at :=
    ((env.streamInfos.lookup user.target).bind id).bind (fun s => s.started_at)
  match started_at with
  | some started_at =>
    user.respond ("Stream has been live for " ++ env.humanTime (env.now - started_at) ++ ".")
  | none =>
    user.respond "Stream is not live right now, try again later!"

/-- `MessageHandler::handle_title`: report the cached stream title. -/
def handle_title (env : Env) (user : User) : M Unit :=
  let title :=
    ((env.streamInfos.lookup user.target).bind id).map (fun s => s.title)
  match title with
  | some title => user.respond title
  | none => user.respond "Stream is not live right now, try again later!"

/-- `MessageHandler::handle_update_title`: spawn the asynchronous platform
update (fire-and-forget task recorded as a spawn effect). -/
def handle_update_title (user : User) (title : String) : M Unit :=
  emit (Effect.spawnUpdateTitle (String.mk (user.target.data.dropWhile (fun c => c = '#'))) title)

/-- `MessageHandler::handle_game`: report the cached game. -/
def handle_game (env : Env) (user : User) : M Unit :=
  let game :=
    ((env.streamInfos.lookup user.target).bind id).bind (fun s => s.game)
  match game with
  | some game => user.respond game
  | none => user.respond "Unfortunately I don't know the game, sorry!"

/-- `MessageHandler::handle_update_game`: spawn the asynchronous platform
update. -/
def handle_update_game (user : User) (game : String) : M Unit :=
  emit (Effect.spawnUpdateGame (String.mk (user.target.data.dropWhile (fun c => c = '#'))) game)

/-- The currency block of `process_command`'s fallback arm: when the token is
the channel's currency name, reply with the sender's balance, defaulting to
zero. -/
def currencyStep (env : Env) (user : User) (other : String) : M Unit :=
  match env.currencies.lookup user.target with
  | some currency =>
    if currency = other then do
      let st ← getSt
      let balance := (balance_of st user.name).getD 0
      user.respond ("You have " ++ toString balance ++ " " ++ currency ++ ".")
    else pure ()
  | none => pure ()

/-- The custom-command block of `process_command`'s fallback arm, gated by the
`Command` feature. -/
def commandStep (env : Env) (features : FeatureSet) (user : User)
    (other : String) : M Unit :=
  if features.contains Feature.Command then do
    let st ← getSt
    match commandsGet st.commandsDb user.target other with
    | some command => do
      let response ← liftEx (env.renderTemplate command.text
        { name := user.name, target := user.target })
      emit (Effect.privmsg user.target response)
    | none => pure ()
  else pure ()

/-- The counter block of `process_command`'s fallback arm, gated by the
`Counter` feature: increment, then render with the new count. -/
def counterStep (env : Env) (features : FeatureSet) (user : User)
    (other : String) : M Unit :=
  if features.contains Feature.Counter then do
    let st ← getSt
    match countersGet st.countersDb user.target other with
    | some counter => do
      countersIncrement user.target other
      let response ← liftEx (env.renderCounter counter.text
        { name := user.name, target := user.target, count := counter.count + 1 })
      emit (Effect.privmsg user.target response)
    | none => pure ()
  else pure ()

/-- The `other` arm of `process_command`: the fallback lookup — currency,
then custom command, then counter, in this order. -/
def fallbackArm (env : Env) (features : FeatureSet) (user : User)
    (other : String) : M Unit := do
  currencyStep env user other
  commandStep env features user other
  counterStep env features user other

/-- The body of `MessageHandler::process_command` after the user context is
built: the string-keyed dispatch. A Rust match arm with a failed feature guard
falls through to the catch-all `other` arm, so each gated arm's else branch is
the fallback. -/
def process_command_inner (env : Env) (features : FeatureSet)
    (it : Words) (user : User) (command : String) : M Unit :=
  if command = "ping" then do
    user.respond "What do you want?"
    emit Effect.notifyPing
    liftEx env.notifierRes
  else if command = "song" then
    if features.contains Feature.Song then handle_song env user it
    else fallbackArm env features user command
  else if command = "command" then
    if features.contains Feature.Command then handle_command env user it
    else fallbackArm env features user command
  else if command = "counter" then
    handle_counter env user it
  else if command = "afterstream" then
    if features.contains Feature.AfterStream then do
      insert_afterstream user.name it.rest
      user.respond "Reminder added."
    else fallbackArm env features user command
  else if command = "badword" then
    if features.contains Feature.BadWords then handle_bad_word env user it
    else fallbackArm env features user command
  else if command = "uptime" then
    if features.contains Feature.Admin then handle_uptime env user
    else fallbackArm env features user command
  else if command = "title" then
    if features.contains Feature.Admin then
      (let rest := it.rest
       if rest.isEmpty then handle_title env user
       else do
         check_moderator env user
         handle_update_title user rest)
    else fallbackArm env features user command
  else if command = "game" then
    if features.contains Feature.Admin then
      (let rest := it.rest
       if rest.isEmpty then handle_game env user
       else do
         check_moderator env user
         handle_update_game user rest)
    else fallbackArm env features user command
  else
    fallbackArm env features user command

/-- `MessageHandler::process_command`: build the user context, then dispatch. -/
def process_command (env : Env) (features : FeatureSet) (command : String)
    (m : Message) (it : Words) : M Unit := do
  let user ← as_user m
  process_command_inner env features it user command

/-- Absorb an error from command processing: `handle` logs it and keeps
going. -/
def absorbErr (x : M Unit) : M Unit := fun st =>
  match x st with
  | (_, st1, e1) => (Except.ok (), st1, e1)

/-- The features for a message's reply target (`handle`'s first match). -/
def featuresFor (env : Env) (m : Message) : FeatureSet :=
  match m.response_target with
  | some target => env.featuresMap.features target
  | none => []

/-- The channel config for a message's reply target. -/
def configFor (env : Env) (m : Message) : Option ChannelCfg :=
  match m.response_target with
  | some target => env.configs.lookup target
  | none => none

/-- Command-prefix detection and dispatch over the resolved word iterator
(the tail of `handle`'s command half): a token starting with `!` is processed
as a command, its error logged and absorbed. -/
def commandDispatch (env : Env) (features : FeatureSet) (m : Message)
    (it : Words) : M Unit :=
  match it.next with
  | (some command, it') =>
    if strStartsWith command "!" then
      absorbErr (process_command env features (strDrop command 1) m it')
    else pure ()
  | (none, _) => pure ()

/-- The command-processing half of `handle`'s PRIVMSG branch: alias
substitution, then command dispatch. -/
def commandPhase (env : Env) (features : FeatureSet) (config : Option ChannelCfg)
    (m : Message) (message : String) : M Unit :=
  let it0 := Words.new message
  let it :=
    match config with
    | some c =>
      match c.aliases message with
      | some sub => Words.new sub
      | none => it0
    | none => it0
  commandDispatch env features m it

/-- The moderation half of `handle`'s PRIVMSG branch: decide deletion on the
current state, then delete if flagged. -/
def moderationPhase (env : Env) (features : FeatureSet) (m : Message)
    (source message : String) : M Unit := do
  let flagged ← liftRead (should_be_deleted env features m message)
  if flagged then delete_message source (extractTags m) else pure ()

/-- `MessageHandler::handle`: per-message dispatch. Only the PRIVMSG branch
changes state or emits effects; every other command is logged and ignored. -/
def handle (env : Env) (m : Message) : M Unit :=
  let features := featuresFor env m
  let config := configFor env m
  match m.command with
  | .PRIVMSG source message => do
    commandPhase env features config m message
    moderationPhase env features m source message
  | .otherCmd => pure ()

/-! Sample objects used to instantiate theorems at concrete inputs. -/

/-- A sample player oracle: volume 50, empty queue, succeeding calls. -/
def playerW : PlayerClient where
  listFn := fun _ => []
  current := none
  currentVolume := 50
  removeLast := Except.ok none
  removeLastByUser := fun _ => Except.ok none
  volumeRes := Except.ok ()
  skipRes := Except.ok ()
  toggleRes := Except.ok ()
  playRes := Except.ok ()
  pauseRes := Except.ok ()
  queueLength := (0, 0)

/-- A sample environment: moderator `mod`, whitelisted host `example.com`,
currency `gold` and a player on `#chan`, templates rendered as their own
source text. -/
def envW : Env where
  moderators := ["mod"]
  whitelistedHosts := ["example.com"]
  currencies := [("#chan", "gold")]
  players := [("#chan", playerW)]
  streamInfos := []
  featuresMap := ⟨[("#chan", [Feature.Song])]⟩
  configs := []
  whyRender := fun t _ => Except.ok t
  renderTemplate := fun t _ => Except.ok t
  renderCounter := fun t _ => Except.ok t
  humanTime := fun _ => "a while"
  notifierRes := Except.ok ()
  now := 0

/-- A sample store: one custom command `hello`, one counter `cnt` at 3, a
bad word `x` without a reason and a bad word `dang` with one. -/
def stW : St where
  balances := []
  afterstreams := []
  commandsDb := [⟨"#chan", "hello", "Hi!"⟩]
  countersDb := [⟨"#chan", "cnt", "counted", 3⟩]
  badWordsDb := [("x", none), ("dang", some "Mind your language.")]

/-- A sample non-moderator user on `#chan`. -/
def userW : User := ⟨"alice", "#chan"⟩

/-- A sample moderator user on `#chan`. -/
def userModW : User := ⟨"mod", "#chan"⟩

/-- A sample channel PRIVMSG from the non-moderator, with an `id` tag. -/
def mW : Message where
  sourceNickname := some "alice"
  tags := some [⟨"id", some "42"⟩]
  command := IrcCommand.PRIVMSG "#chan" "hi"

/-- A sample channel PRIVMSG from the moderator. -/
def mModW : Message where
  sourceNickname := some "mod"
  tags := some [⟨"id", some "77"⟩]
  command := IrcCommand.PRIVMSG "#chan" "bad x http://evil.com/x"

/-- A sample store for the fallback-order claim: custom command and counter
both named `gold`, matching the `#chan` currency, no balance records. -/
def stC5 : St where
  balances := []
  afterstreams := []
  commandsDb := [⟨"#chan", "gold", "Shiny!"⟩]
  countersDb := [⟨"#chan", "gold", "Golden", 7⟩]
  badWordsDb := []

/-- Carry a fixed commands store through a dispatch result (proof support for
non-interference statements). -/
def withCmdDb {α : Type} (db : List CmdEntry)
    (t : Except Er α × St × List Effect) : Except Er α × St × List Effect :=
  (t.1, { t.2.1 with commandsDb := db }, t.2.2)

/-- Carry a fixed counters store through a dispatch result (proof support for
non-interference statements). -/
def withCtrDb {α : Type} (db : List CtrEntry)
    (t : Except Er α × St × List Effect) : Except Er α × St × List Effect :=
  (t.1, { t.2.1 with countersDb := db }, t.2.2)

/-! Helper lemmas. -/

/-- The URL loop flags exactly when some URL exposes a non-whitelisted host. -/
theorem hasBadLinkUrls_iff (wl : List String) (urls : List Url) :
    hasBadLinkUrls wl urls = true ↔
      ∃ u ∈ urls, ∃ h, u.host = some h ∧ wl.contains h = false := by
  induction urls with
  | nil => simp [hasBadLinkUrls]
  | cons u us ih =>
    cases hu : u.host with
    | none =>
      simp only [hasBadLinkUrls, hu, ih, List.mem_cons]
      constructor
      · rintro ⟨v, hv, hh⟩
        exact ⟨v, Or.inr hv, hh⟩
      · rintro ⟨v, hv | hv, hh⟩
        · rcases hh with ⟨h, hh, _⟩
          rw [hv, hu] at hh
          cases hh
        · exact ⟨v, hv, hh⟩
    | some h =>
      by_cases hw : wl.contains h = true
      · simp only [hasBadLinkUrls, hu, hw, Bool.not_true, Bool.false_eq_true,
          if_false, ih, List.mem_cons]
        constructor
        · rintro ⟨v, hv, hh⟩
          exact ⟨v, Or.inr hv, hh⟩
        · rintro ⟨v, hv | hv, hh⟩
          · rcases hh with ⟨h', hh, hwl⟩
            rw [hv, hu] at hh
            cases hh
            rw [hw] at hwl
            cases hwl
          · exact ⟨v, hv, hh⟩
      · rw [Bool.not_eq_true] at hw
        simp only [hasBadLinkUrls, hu, hw, Bool.not_false, if_true, true_iff]
        exact ⟨u, List.mem_cons_self u us, h, hu, hw⟩

/-- A hit of the first-match scan is the first word the tester accepts. -/
theorem firstTest_first (db : List (String × Option String)) :
    ∀ (l : List String) (w : Word), firstTest db l = some w →
      ∃ pre x post, l = pre ++ x :: post ∧
        (∀ y ∈ pre, testWord db y = none) ∧ testWord db x = some w := by
  intro l
  induction l with
  | nil => intro w h; cases h
  | cons a as ih =>
    intro w h
    unfold firstTest at h
    cases ha : testWord db a with
    | some x =>
      rw [ha] at h
      cases h
      exact ⟨[], a, as, rfl, by simp, ha⟩
    | none =>
      rw [ha] at h
      rcases ih w h with ⟨pre, x, post, hl, hpre, hx⟩
      refine ⟨a :: pre, x, post, by rw [hl]; rfl, ?_, hx⟩
      intro y hy
      rcases List.mem_cons.mp hy with hy | hy
      · rw [hy]; exact ha
      · exact hpre y hy

/-! Claim theorems. -/

/-- C8: `Features::features` is total — for a known channel it returns the
configured feature set, for an unknown channel the empty set, and it never
signals an error. -/
theorem c8_features_total (self : Features) (channel : String) :
    (∀ fs, self.map.lookup channel = some fs → self.features channel = fs) ∧
    (self.map.lookup channel = none → self.features channel = []) := by
  constructor
  · intro fs h
    simp [Features.features, h]
  · intro h
    simp [Features.features, h]

theorem c8_features_total_witness :
    envW.featuresMap.map.lookup "#chan" = some [Feature.Song] ∧
    envW.featuresMap.features "#chan" = [Feature.Song] ∧
    envW.featuresMap.map.lookup "#zzz" = none ∧
    envW.featuresMap.features "#zzz" = [] :=
  ⟨by decide,
   (c8_features_total envW.featuresMap "#chan").1 [Feature.Song] (by decide),
   by decide,
   (c8_features_total envW.featuresMap "#zzz").2 (by decide)⟩

/-- C9: `has_bad_link` flags only when some URL of the message exposes a host
string absent from the whitelist; a URL without a host never causes a flag. -/
theorem c9_hostless_urls (env : Env) (message : String) :
    has_bad_link env message = true ↔
      ∃ u ∈ urlsOf message, ∃ h, u.host = some h ∧
        env.whitelistedHosts.contains h = false :=
  hasBadLinkUrls_iff env.whitelistedHosts (urlsOf message)

/-- C7: `delete_message` sends the delete directive for the message identifier
to the given source, is a successful no-op without an identifier, and for a
channel PRIVMSG the source it is invoked with in `handle` is the message's
reply target. -/
theorem c7_delete_message (source : String) (tags : Tags) (st : St) :
    (∀ mid, tags.message_id = some mid →
      delete_message source tags st =
        (Except.ok (), st, [Effect.privmsg source ("/delete " ++ mid)])) ∧
    (tags.message_id = none →
      delete_message source tags st = (Except.ok (), st, [])) ∧
    (∀ (m : Message) (target text : String),
      m.command = IrcCommand.PRIVMSG target text → strStartsWith target "#" = true →
      m.response_target = some target) := by
  refine ⟨?_, ?_, ?_⟩
  · intro mid h
    simp [delete_message, h, emit]
  · intro h
    simp only [delete_message, h]
    rfl
  · intro m target text hc hs
    simp [Message.response_target, hc, hs]

theorem c7_delete_message_witness :
    (extractTags mW).message_id = some "42" ∧
    delete_message "#chan" (extractTags mW) stW =
      (Except.ok (), stW, [Effect.privmsg "#chan" ("/delete " ++ "42")]) ∧
    (Tags.mk none).message_id = none ∧
    delete_message "#chan" (Tags.mk none) stW = (Except.ok (), stW, []) ∧
    mW.command = IrcCommand.PRIVMSG "#chan" "hi" ∧
    mW.response_target = some "#chan" :=
  ⟨by decide,
   (c7_delete_message "#chan" (extractTags mW) stW).1 "42" (by decide),
   by decide,
   (c7_delete_message "#chan" (Tags.mk none) stW).2.1 (by decide),
   by decide,
   (c7_delete_message "#chan" (extractTags mW) stW).2.2 mW "#chan" "hi" (by decide) (by decide)⟩

/-- A moderator sender short-circuits the moderation pipeline. -/
theorem sbd_moderator (env : Env) (fs : FeatureSet) (m : Message)
    (message : String) (st : St) (u : String)
    (hu : m.sourceNickname = some u) (hmod : env.moderators.contains u = true) :
    should_be_deleted env fs m message st = (false, []) := by
  have hmem : u ∈ env.moderators := by simpa using hmod
  simp [should_be_deleted, hu, hmem]

/-- Absorbing a computation's error always yields success. -/
theorem absorbErr_ok (x : M Unit) (st : St) :
    ∃ st1 e1, absorbErr x st = (Except.ok (), st1, e1) := by
  unfold absorbErr
  rcases hx : x st with ⟨r, st1, e1⟩
  exact ⟨st1, e1, rfl⟩

/-- Command dispatch always reports success (errors are absorbed). -/
theorem commandDispatch_ok (env : Env) (features : FeatureSet) (m : Message)
    (it : Words) (st : St) :
    ∃ st1 e1, commandDispatch env features m it st = (Except.ok (), st1, e1) := by
  unfold commandDispatch
  rcases hn : it.next with ⟨c, it2⟩
  cases c with
  | none => exact ⟨st, [], rfl⟩
  | some cmd =>
    by_cases hb : strStartsWith cmd "!" = true
    · simpa [hb] using
        absorbErr_ok (process_command env features (strDrop cmd 1) m it2) st
    · exact ⟨st, [], by simp [hb]; rfl⟩

/-- The command phase always reports success (errors are absorbed). -/
theorem commandPhase_ok (env : Env) (features : FeatureSet)
    (config : Option ChannelCfg) (m : Message) (message : String) (st : St) :
    ∃ st1 e1, commandPhase env features config m message st =
      (Except.ok (), st1, e1) := by
  unfold commandPhase
  exact commandDispatch_ok _ _ _ _ _

/-- When the deletion decision is negative with no warning, the moderation
phase is a silent no-op. -/
theorem moderationPhase_skip (env : Env) (fs : FeatureSet) (m : Message)
    (source message : String) (st : St)
    (h : should_be_deleted env fs m message st = (false, [])) :
    moderationPhase env fs m source message st = (Except.ok (), st, []) := by
  unfold moderationPhase
  rw [bind_apply]
  unfold M.bind liftRead
  rw [h]
  rfl

/-- The moderation phase always reports success. -/
theorem moderationPhase_ok (env : Env) (fs : FeatureSet) (m : Message)
    (source message : String) (st : St) :
    ∃ st1 e1, moderationPhase env fs m source message st =
      (Except.ok (), st1, e1) := by
  unfold moderationPhase
  rw [bind_apply]
  unfold M.bind liftRead delete_message
  cases hf : (should_be_deleted env fs m message st).1 with
  | false => exact ⟨st, _, rfl⟩
  | true =>
    cases ht : (extractTags m).message_id with
    | none => exact ⟨st, _, rfl⟩
    | some mid => exact ⟨st, _, rfl⟩

/-- C3: a moderator sender is never flagged, no warning or deletion directive
is emitted for the message, and `handle` reduces to bare command processing. -/
theorem c3_moderator_never_flagged (env : Env) (fs : FeatureSet) (m : Message)
    (message source : String) (st : St) (u : String)
    (hu : m.sourceNickname = some u) (hmod : env.moderators.contains u = true) :
    should_be_deleted env fs m message st = (false, []) ∧
    (m.command = IrcCommand.PRIVMSG source message →
      handle env m st =
        commandPhase env (featuresFor env m) (configFor env m) m message st) := by
  constructor
  · exact sbd_moderator env fs m message st u hu hmod
  · intro hc
    simp only [handle, hc]
    rw [bind_apply]
    unfold M.bind
    obtain ⟨st1, e1, hcp⟩ :=
      commandPhase_ok env (featuresFor env m) (configFor env m) m message st
    rw [hcp]
    have hms := moderationPhase_skip env (featuresFor env m) m source message st1
      (sbd_moderator env (featuresFor env m) m message st1 u hu hmod)
    simp [hms]

theorem c3_moderator_never_flagged_witness :
    mModW.sourceNickname = some "mod" ∧
    envW.moderators.contains "mod" = true ∧
    should_be_deleted envW [Feature.BadWords, Feature.UrlWhitelist] mModW
      "bad x http://evil.com/x" stW = (false, []) ∧
    handle envW mModW stW =
      commandPhase envW (featuresFor envW mModW) (configFor envW mModW) mModW
        "bad x http://evil.com/x" stW :=
  ⟨rfl, by decide,
   (c3_moderator_never_flagged envW [Feature.BadWords, Feature.UrlWhitelist]
      mModW "bad x http://evil.com/x" "#chan" stW "mod" rfl (by decide)).1,
   (c3_moderator_never_flagged envW [Feature.BadWords, Feature.UrlWhitelist]
      mModW "bad x http://evil.com/x" "#chan" stW "mod" rfl (by decide)).2 rfl⟩

/-- C2 counterexample: with BadWords and UrlWhitelist both enabled and a
message matching no filter entry, the URL-whitelist branch still runs and
flags the message — so it is not evaluated only as an `else` of an enabled
BadWords branch, contradicting the claim's strict if/else-if reading (under
which this message would not be flagged). -/
theorem c2_url_branch_not_else_counterexample :
    ([Feature.BadWords, Feature.UrlWhitelist] : FeatureSet).contains
      Feature.BadWords = true ∧
    test_bad_words stW.badWordsDb "check http://evil.com/x" = none ∧
    (should_be_deleted envW [Feature.BadWords, Feature.UrlWhitelist] mW
      "check http://evil.com/x" stW).1 = true := by
  refine ⟨by decide, by decide, by decide⟩

/-- C2 (amended): the pipeline in order — (1) a moderator sender is never
flagged; (2) if BadWords is enabled and a filter entry matches, the message is
flagged; (3) whenever the bad-word branch did not flag (BadWords disabled or
no match), if UrlWhitelist is enabled the message is flagged exactly when it
has a non-whitelisted URL host, with no warning from this branch; (4)
otherwise the message is not flagged. Concretely, with whitelist
`{example.com}`, `check http://evil.com/x` is flagged and
`check http://example.com/x` is not. -/
theorem c2_moderation_steps_amended (env : Env) (fs : FeatureSet) (m : Message)
    (message : String) (st : St) :
    (∀ u, m.sourceNickname = some u → env.moderators.contains u = true →
      should_be_deleted env fs m message st = (false, [])) ∧
    ((m.sourceNickname.map (fun u => env.moderators.contains u)).getD false
        = false →
      (∀ w, fs.contains Feature.BadWords = true →
        test_bad_words st.badWordsDb message = some w →
        (should_be_deleted env fs m message st).1 = true) ∧
      ((fs.contains Feature.BadWords = true →
          test_bad_words st.badWordsDb message = none) →
        fs.contains Feature.UrlWhitelist = true →
        should_be_deleted env fs m message st = (has_bad_link env message, [])) ∧
      ((fs.contains Feature.BadWords = true →
          test_bad_words st.badWordsDb message = none) →
        fs.contains Feature.UrlWhitelist = false →
        should_be_deleted env fs m message st = (false, []))) ∧
    (should_be_deleted envW [Feature.UrlWhitelist] mW "check http://evil.com/x"
      stW).1 = true ∧
    (should_be_deleted envW [Feature.UrlWhitelist] mW
      "check http://example.com/x" stW).1 = false := by
  refine ⟨fun u hu hmod => sbd_moderator env fs m message st u hu hmod,
    fun hnm => ⟨?_, ?_, ?_⟩, by decide, by decide⟩
  · intro w hbw ht
    unfold should_be_deleted
    dsimp only
    rw [hnm, hbw]
    simp [ht]
  · intro hb hurl
    have hscr : (if fs.contains Feature.BadWords = true then
        test_bad_words st.badWordsDb message else none) = none := by
      cases hbw : fs.contains Feature.BadWords
      · simp
      · simp [hb hbw]
    unfold should_be_deleted
    dsimp only
    rw [hnm, hscr, hurl]
    simp
  · intro hb hurl
    have hscr : (if fs.contains Feature.BadWords = true then
        test_bad_words st.badWordsDb message else none) = none := by
      cases hbw : fs.contains Feature.BadWords
      · simp
      · simp [hb hbw]
    unfold should_be_deleted
    dsimp only
    rw [hnm, hscr, hurl]
    simp

theorem c2_moderation_steps_amended_witness :
    (mW.sourceNickname.map (fun u => envW.moderators.contains u)).getD false
      = false ∧
    ([Feature.UrlWhitelist] : FeatureSet).contains Feature.BadWords = false ∧
    ([Feature.UrlWhitelist] : FeatureSet).contains Feature.UrlWhitelist
      = true ∧
    should_be_deleted envW [Feature.UrlWhitelist] mW "check http://evil.com/x"
      stW = (has_bad_link envW "check http://evil.com/x", []) ∧
    ([Feature.BadWords] : FeatureSet).contains Feature.BadWords = true ∧
    test_bad_words stW.badWordsDb "a x b" = some ⟨"x", none⟩ ∧
    (should_be_deleted envW [Feature.BadWords] mW "a x b" stW).1 = true ∧
    ([] : FeatureSet).contains Feature.UrlWhitelist = false ∧
    should_be_deleted envW [] mW "check http://evil.com/x" stW = (false, []) :=
  ⟨by decide, by decide, by decide,
   ((c2_moderation_steps_amended envW [Feature.UrlWhitelist] mW
      "check http://evil.com/x" stW).2.1 (by decide)).2.1
     (fun h => by cases h) (by decide),
   by decide, by decide,
   ((c2_moderation_steps_amended envW [Feature.BadWords] mW "a x b" stW).2.1
     (by decide)).1 ⟨"x", none⟩ (by decide) (by decide),
   by decide,
   ((c2_moderation_steps_amended envW [] mW "check http://evil.com/x" stW).2.1
     (by decide)).2.2 (fun h => by cases h) (by decide)⟩

/-- C4: the bad-word test returns at most one entry — the first trimmed word
accepted by the filter wins; a match flags the message regardless of the
entry's reason; a warning is emitted only when the reason, the sender name and
the reply target are all present; and a filter entry `x` with no reason flags
a message containing `x` with no warning. -/
theorem c4_badword_first_match (env : Env) (fs : FeatureSet) (m : Message)
    (message : String) (st : St) (db : List (String × Option String)) :
    (∀ w, test_bad_words db message = some w →
      ∃ pre x post, trimmedWords message = pre ++ x :: post ∧
        (∀ y ∈ pre, testWord db y = none) ∧ testWord db x = some w) ∧
    ((m.sourceNickname.map (fun u => env.moderators.contains u)).getD false
        = false →
      ∀ w, fs.contains Feature.BadWords = true →
        test_bad_words st.badWordsDb message = some w →
        (should_be_deleted env fs m message st).1 = true) ∧
    (∀ flag effs, should_be_deleted env fs m message st = (flag, effs) →
      effs ≠ [] →
      ∃ w, test_bad_words st.badWordsDb message = some w ∧
        w.why ≠ none ∧ m.sourceNickname ≠ none ∧ m.response_target ≠ none) ∧
    should_be_deleted envW [Feature.BadWords] mW "a x b" stW = (true, []) := by
  refine ⟨fun w h => firstTest_first db (trimmedWords message) w h, ?_, ?_,
    by decide⟩
  · intro hnm w hbw ht
    unfold should_be_deleted
    dsimp only
    rw [hnm, hbw]
    simp [ht]
  · intro flag effs heq hne
    unfold should_be_deleted at heq
    dsimp only at heq
    cases hm : (m.sourceNickname.map (fun u => env.moderators.contains u)).getD
        false
    · rw [hm] at heq
      cases hbw : fs.contains Feature.BadWords
      · rw [hbw] at heq
        simp only [Bool.false_eq_true, if_false] at heq
        cases hurl : fs.contains Feature.UrlWhitelist
        · rw [hurl] at heq
          simp only [Bool.false_eq_true, if_false, Bool.false_eq_true] at heq
          cases heq
          exact absurd rfl hne
        · rw [hurl] at heq
          simp only [if_true] at heq
          cases heq
          exact absurd rfl hne
      · rw [hbw] at heq
        simp only [if_true] at heq
        cases ht : test_bad_words st.badWordsDb message with
        | none =>
          rw [ht] at heq
          simp only [] at heq
          cases hurl : fs.contains Feature.UrlWhitelist
          · rw [hurl] at heq
            simp only [Bool.false_eq_true, if_false] at heq
            cases heq
            exact absurd rfl hne
          · rw [hurl] at heq
            simp only [if_true] at heq
            cases heq
            exact absurd rfl hne
        | some w =>
          rw [ht] at heq
          dsimp only at heq
          cases hwhy : w.why with
          | none =>
            rw [hwhy] at heq
            dsimp only at heq
            cases heq
            exact absurd rfl hne
          | some why =>
            cases hsn : m.sourceNickname with
            | none =>
              rw [hwhy, hsn] at heq
              dsimp only at heq
              cases heq
              exact absurd rfl hne
            | some u =>
              cases hrt : m.response_target with
              | none =>
                rw [hwhy, hsn, hrt] at heq
                dsimp only at heq
                cases heq
                exact absurd rfl hne
              | some tgt =>
                exact ⟨w, rfl, by simp [hwhy], by simp [hsn], by simp [hrt]⟩
    · rw [hm] at heq
      simp only [if_true] at heq
      cases heq
      exact absurd rfl hne

theorem c4_badword_first_match_witness :
    test_bad_words stW.badWordsDb "a x b" = some ⟨"x", none⟩ ∧
    (∃ pre x post, trimmedWords "a x b" = pre ++ x :: post ∧
      (∀ y ∈ pre, testWord stW.badWordsDb y = none) ∧
      testWord stW.badWordsDb x = some ⟨"x", none⟩) ∧
    (should_be_deleted envW [Feature.BadWords] mW "a x b" stW).1 = true ∧
    should_be_deleted envW [Feature.BadWords] mW "dang" stW
      = (true, [Effect.privmsg "#chan" "Mind your language."]) ∧
    (∃ w, test_bad_words stW.badWordsDb "dang" = some w ∧
      w.why ≠ none ∧ mW.sourceNickname ≠ none ∧ mW.response_target ≠ none) :=
  ⟨by decide,
   (c4_badword_first_match envW [Feature.BadWords] mW "a x b" stW
      stW.badWordsDb).1 ⟨"x", none⟩ (by decide),
   (c4_badword_first_match envW [Feature.BadWords] mW "a x b" stW
      stW.badWordsDb).2.1 (by decide) ⟨"x", none⟩ (by decide) (by decide),
   by decide,
   (c4_badword_first_match envW [Feature.BadWords] mW "dang" stW
      stW.badWordsDb).2.2.1 true [Effect.privmsg "#chan" "Mind your language."]
     (by decide) (by decide)⟩

/-- C6: `check_moderator` fails exactly for non-moderators, in that case
emitting exactly one scripted refusal; the failure aborts the rest of the
current command computation (no further effects); and `handle` absorbs
command-processing failures, returning success for every PRIVMSG so stream
processing continues. -/
theorem c6_check_moderator (env : Env) (user : User) (m : Message) (st : St)
    (source message : String) :
    (is_moderator env user = true →
      check_moderator env user st = (Except.ok (), st, [])) ∧
    (is_moderator env user = false →
      check_moderator env user st =
        (Except.error "moderator access required for action", st,
         [Effect.privmsg user.target
            ("Do you think this is a democracy " ++ user.name ++ "? LUL")]) ∧
      ∀ f : Unit → M Unit,
        (check_moderator env user >>= f) st =
          (Except.error "moderator access required for action", st,
           [Effect.privmsg user.target
              ("Do you think this is a democracy " ++ user.name ++ "? LUL")])) ∧
    (m.command = IrcCommand.PRIVMSG source message →
      (handle env m st).1 = Except.ok ()) := by
  refine ⟨?_, ?_, ?_⟩
  · intro h
    simp [check_moderator, h]
  · intro h
    constructor
    · simp [check_moderator, h]
    · intro f
      rw [bind_apply]
      unfold M.bind check_moderator
      rw [h]
      simp
  · intro hc
    simp only [handle, hc]
    rw [bind_apply]
    unfold M.bind
    obtain ⟨st1, e1, hcp⟩ :=
      commandPhase_ok env (featuresFor env m) (configFor env m) m message st
    rw [hcp]
    obtain ⟨st2, e2, hmp⟩ :=
      moderationPhase_ok env (featuresFor env m) m source message st1
    simp [hmp]

theorem c6_check_moderator_witness :
    is_moderator envW userModW = true ∧
    check_moderator envW userModW stW = (Except.ok (), stW, []) ∧
    is_moderator envW userW = false ∧
    check_moderator envW userW stW =
      (Except.error "moderator access required for action", stW,
       [Effect.privmsg "#chan" ("Do you think this is a democracy " ++ "alice"
          ++ "? LUL")]) ∧
    (check_moderator envW userW >>= fun _ => emit Effect.playerSkip) stW =
      (Except.error "moderator access required for action", stW,
       [Effect.privmsg "#chan" ("Do you think this is a democracy " ++ "alice"
          ++ "? LUL")]) ∧
    (handle envW mW stW).1 = Except.ok () :=
  ⟨by decide,
   (c6_check_moderator envW userModW mW stW "#chan" "hi").1 (by decide),
   by decide,
   ((c6_check_moderator envW userW mW stW "#chan" "hi").2.1 (by decide)).1,
   ((c6_check_moderator envW userW mW stW "#chan" "hi").2.1 (by decide)).2
     (fun _ => emit Effect.playerSkip),
   (c6_check_moderator envW userW mW stW "#chan" "hi").2.2 rfl⟩

/-- C10: an accepted `!song volume` update from a moderator always applies and
reports a volume between 0 and 100: `+n` uses saturating unsigned addition,
`-n` saturating subtraction, an absolute argument is taken as given, and the
result is clamped to at most 100 before the reply and the player call (the
volume is a `Nat`, so it is never below zero). -/
theorem c10_volume_clamped (env : Env) (user : User) (it it1 it2 : Words)
    (other : String) (pl : PlayerClient) (st : St) (n : Nat)
    (hpl : env.players.lookup user.target = some pl)
    (hmod : env.moderators.contains user.name = true)
    (h1 : it.next = (some "volume", it1))
    (h2 : it1.next = (some other, it2)) :
    (∀ r, signSplit other = (some true, r) → parseU32 r = some n →
      handle_song env user it st =
        (pl.volumeRes, st,
         [Effect.privmsg user.target (user.name ++ " -> " ++
            ("Volume set to " ++ toString (min 100 (satAddU32 pl.currentVolume n))
              ++ ".")),
          Effect.playerVolume (min 100 (satAddU32 pl.currentVolume n))]) ∧
      min 100 (satAddU32 pl.currentVolume n) ≤ 100) ∧
    (∀ r, signSplit other = (some false, r) → parseU32 r = some n →
      handle_song env user it st =
        (pl.volumeRes, st,
         [Effect.privmsg user.target (user.name ++ " -> " ++
            ("Volume set to " ++ toString (min 100 (pl.currentVolume - n))
              ++ ".")),
          Effect.playerVolume (min 100 (pl.currentVolume - n))]) ∧
      min 100 (pl.currentVolume - n) ≤ 100) ∧
    (signSplit other = (none, other) → parseU32 other = some n →
      handle_song env user it st =
        (pl.volumeRes, st,
         [Effect.privmsg user.target (user.name ++ " -> " ++
            ("Volume set to " ++ toString (min 100 n) ++ ".")),
          Effect.playerVolume (min 100 n)]) ∧
      min 100 n ≤ 100) := by
  have hmem : user.name ∈ env.moderators := by simpa using hmod
  refine ⟨?_, ?_, ?_⟩
  · intro r hss hp
    refine ⟨?_, Nat.min_le_left _ _⟩
    simp [handle_song, hpl, h1, h2, hss, hp, bind_apply, M.bind,
      check_moderator, is_moderator, hmem, User.respond, emit, liftEx]
  · intro r hss hp
    refine ⟨?_, Nat.min_le_left _ _⟩
    simp [handle_song, hpl, h1, h2, hss, hp, bind_apply, M.bind,
      check_moderator, is_moderator, hmem, User.respond, emit, liftEx]
  · intro hss hp
    refine ⟨?_, Nat.min_le_left _ _⟩
    simp [handle_song, hpl, h1, h2, hss, hp, bind_apply, M.bind,
      check_moderator, is_moderator, hmem, User.respond, emit, liftEx]

theorem c10_volume_clamped_witness :
    envW.players.lookup "#chan" = some playerW ∧
    envW.moderators.contains "mod" = true ∧
    (Words.new "volume +10").next = (some "volume", Words.new " +10") ∧
    (Words.new " +10").next = (some "+10", Words.mk []) ∧
    signSplit "+10" = (some true, "10") ∧
    parseU32 "10" = some 10 ∧
    (handle_song envW userModW (Words.new "volume +10") stW =
      (playerW.volumeRes, stW,
       [Effect.privmsg "#chan" ("mod" ++ " -> " ++
          ("Volume set to " ++
             toString (min 100 (satAddU32 playerW.currentVolume 10)) ++ ".")),
        Effect.playerVolume (min 100 (satAddU32 playerW.currentVolume 10))]) ∧
      min 100 (satAddU32 playerW.currentVolume 10) ≤ 100) :=
  ⟨rfl, by decide, by decide, by decide, by decide, by decide,
   (c10_volume_clamped envW userModW (Words.new "volume +10") (Words.new " +10")
      (Words.mk []) "+10" playerW stW 10 rfl (by decide) (by decide)
      (by decide)).1 "10" (by decide) (by decide)⟩

/-- C5: a command token matching no built-in runs the fallback lookup, and all
applicable branches execute in the fixed order currency, custom command,
counter: the currency reply defaults to exactly 0 without a balance record,
the custom command renders with {sender, target}, and the counter is
incremented and then rendered with the new count. -/
theorem c5_fallback_order (env : Env) (fs : FeatureSet) (it : Words)
    (user : User) (st : St) (other cname resp kresp : String)
    (cEntry : CmdEntry) (kEntry : CtrEntry)
    (h1 : other ≠ "ping") (h2 : other ≠ "song") (h3 : other ≠ "command")
    (h4 : other ≠ "counter") (h5 : other ≠ "afterstream")
    (h6 : other ≠ "badword") (h7 : other ≠ "uptime") (h8 : other ≠ "title")
    (h9 : other ≠ "game")
    (hcur : env.currencies.lookup user.target = some cname)
    (hname : cname = other)
    (hbal : balance_of st user.name = none)
    (hcmd : fs.contains Feature.Command = true)
    (hget : commandsGet st.commandsDb user.target other = some cEntry)
    (hrender : env.renderTemplate cEntry.text
      { name := user.name, target := user.target } = Except.ok resp)
    (hctr : fs.contains Feature.Counter = true)
    (hkget : countersGet st.countersDb user.target other = some kEntry)
    (hkrender : env.renderCounter kEntry.text
      { name := user.name, target := user.target, count := kEntry.count + 1 }
      = Except.ok kresp) :
    process_command_inner env fs it user other
      = fallbackArm env fs user other ∧
    fallbackArm env fs user other st =
      (Except.ok (),
       { st with countersDb := st.countersDb.map (fun e =>
          if e.target == user.target && e.name == other then
            { e with count := e.count + 1 } else e) },
       [Effect.privmsg user.target (user.name ++ " -> " ++
          ("You have " ++ toString (0 : Int) ++ " " ++ other ++ ".")),
        Effect.privmsg user.target resp,
        Effect.privmsg user.target kresp]) := by
  constructor
  · unfold process_command_inner
    rw [if_neg h1, if_neg h2, if_neg h3, if_neg h4, if_neg h5, if_neg h6,
      if_neg h7, if_neg h8, if_neg h9]
  · subst hname
    have hb2 : List.lookup user.name st.balances = none := hbal
    simp [fallbackArm, bind_apply, M.bind, currencyStep, commandStep,
      counterStep, hcur, hb2, hcmd, hget, hrender, hctr, hkget, hkrender,
      getSt, User.respond, emit, liftEx, countersIncrement, modifySt,
      balance_of]

theorem c5_fallback_order_witness :
    envW.currencies.lookup "#chan" = some "gold" ∧
    balance_of stC5 "alice" = none ∧
    commandsGet stC5.commandsDb "#chan" "gold"
      = some ⟨"#chan", "gold", "Shiny!"⟩ ∧
    countersGet stC5.countersDb "#chan" "gold"
      = some ⟨"#chan", "gold", "Golden", 7⟩ ∧
    process_command_inner envW [Feature.Command, Feature.Counter] (Words.mk [])
      userW "gold"
      = fallbackArm envW [Feature.Command, Feature.Counter] userW "gold" ∧
    fallbackArm envW [Feature.Command, Feature.Counter] userW "gold" stC5 =
      (Except.ok (),
       { stC5 with countersDb := stC5.countersDb.map (fun e =>
          if e.target == "#chan" && e.name == "gold" then
            { e with count := e.count + 1 } else e) },
       [Effect.privmsg "#chan" ("alice" ++ " -> " ++
          ("You have " ++ toString (0 : Int) ++ " " ++ "gold" ++ ".")),
        Effect.privmsg "#chan" "Shiny!",
        Effect.privmsg "#chan" "Golden"]) :=
  ⟨by decide, by decide, by decide, by decide,
   (c5_fallback_order envW [Feature.Command, Feature.Counter] (Words.mk [])
      userW stC5 "gold" "gold" "Shiny!" "Golden" ⟨"#chan", "gold", "Shiny!"⟩
      ⟨"#chan", "gold", "Golden", 7⟩ (by decide) (by decide) (by decide)
      (by decide) (by decide) (by decide) (by decide) (by decide) (by decide)
      (by decide) rfl (by decide) (by decide) (by decide) rfl (by decide)
      (by decide) rfl).1,
   (c5_fallback_order envW [Feature.Command, Feature.Counter] (Words.mk [])
      userW stC5 "gold" "gold" "Shiny!" "Golden" ⟨"#chan", "gold", "Shiny!"⟩
      ⟨"#chan", "gold", "Golden", 7⟩ (by decide) (by decide) (by decide)
      (by decide) (by decide) (by decide) (by decide) (by decide) (by decide)
      (by decide) rfl (by decide) (by decide) (by decide) rfl (by decide)
      (by decide) rfl).2⟩

/-- Sequencing preserves commands-store transport. -/
theorem bind_transport_cmd {α β : Type} (x : M α) (f : α → M β)
    (db : List CmdEntry)
    (hx : ∀ st, x { st with commandsDb := db } = withCmdDb db (x st))
    (hf : ∀ a st, f a { st with commandsDb := db } = withCmdDb db (f a st)) :
    ∀ st, (x >>= f) { st with commandsDb := db }
      = withCmdDb db ((x >>= f) st) := by
  intro st
  rw [bind_apply, bind_apply]
  unfold M.bind
  rw [hx st]
  rcases hxe : x st with ⟨r, st1, e1⟩
  unfold withCmdDb
  dsimp only
  cases r with
  | error e => rfl
  | ok a =>
    dsimp only
    rw [hf a st1]
    rcases hfe : f a st1 with ⟨r2, st2, e2⟩
    unfold withCmdDb
    rfl

/-- Sequencing preserves counters-store transport. -/
theorem bind_transport_ctr {α β : Type} (x : M α) (f : α → M β)
    (db : List CtrEntry)
    (hx : ∀ st, x { st with countersDb := db } = withCtrDb db (x st))
    (hf : ∀ a st, f a { st with countersDb := db } = withCtrDb db (f a st)) :
    ∀ st, (x >>= f) { st with countersDb := db }
      = withCtrDb db ((x >>= f) st) := by
  intro st
  rw [bind_apply, bind_apply]
  unfold M.bind
  rw [hx st]
  rcases hxe : x st with ⟨r, st1, e1⟩
  unfold withCtrDb
  dsimp only
  cases r with
  | error e => rfl
  | ok a =>
    dsimp only
    rw [hf a st1]
    rcases hfe : f a st1 with ⟨r2, st2, e2⟩
    unfold withCtrDb
    rfl

/-- The currency block never touches the commands store. -/
theorem currencyStep_cmdDb (env : Env) (user : User) (other : String)
    (db : List CmdEntry) (st : St) :
    currencyStep env user other { st with commandsDb := db }
      = withCmdDb db (currencyStep env user other st) := by
  unfold currencyStep withCmdDb
  cases hc : env.currencies.lookup user.target with
  | none => rfl
  | some c =>
    dsimp only
    by_cases hco : c = other
    · rw [if_pos hco]
      simp [bind_apply, M.bind, getSt, User.respond, emit, balance_of]
    · rw [if_neg hco]
      rfl

/-- The currency block never touches the counters store. -/
theorem currencyStep_ctrDb (env : Env) (user : User) (other : String)
    (db : List CtrEntry) (st : St) :
    currencyStep env user other { st with countersDb := db }
      = withCtrDb db (currencyStep env user other st) := by
  unfold currencyStep withCtrDb
  cases hc : env.currencies.lookup user.target with
  | none => rfl
  | some c =>
    dsimp only
    by_cases hco : c = other
    · rw [if_pos hco]
      simp [bind_apply, M.bind, getSt, User.respond, emit, balance_of]
    · rw [if_neg hco]
      rfl

/-- The custom-command block never touches the counters store. -/
theorem commandStep_ctrDb (env : Env) (fs : FeatureSet) (user : User)
    (other : String) (db : List CtrEntry) (st : St) :
    commandStep env fs user other { st with countersDb := db }
      = withCtrDb db (commandStep env fs user other st) := by
  unfold commandStep withCtrDb
  by_cases hf : fs.contains Feature.Command = true
  · rw [if_pos hf]
    cases hg : commandsGet st.commandsDb user.target other with
    | none =>
      simp only [bind_apply, M.bind, getSt, hg]
      rfl
    | some c =>
      cases hr : env.renderTemplate c.text
          { name := user.name, target := user.target } with
      | ok resp => simp [bind_apply, M.bind, getSt, hg, hr, liftEx, emit]
      | error e => simp [bind_apply, M.bind, getSt, hg, hr, liftEx, emit]
  · rw [if_neg hf]
    rfl

/-- The counter block never touches the commands store. -/
theorem counterStep_cmdDb (env : Env) (fs : FeatureSet) (user : User)
    (other : String) (db : List CmdEntry) (st : St) :
    counterStep env fs user other { st with commandsDb := db }
      = withCmdDb db (counterStep env fs user other st) := by
  unfold counterStep withCmdDb
  by_cases hf : fs.contains Feature.Counter = true
  · rw [if_pos hf]
    cases hg : countersGet st.countersDb user.target other with
    | none =>
      simp only [bind_apply, M.bind, getSt, hg]
      rfl
    | some k =>
      cases hr : env.renderCounter k.text
          { name := user.name, target := user.target, count := k.count + 1 } with
      | ok resp =>
        simp [bind_apply, M.bind, getSt, hg, hr, liftEx, emit,
          countersIncrement, modifySt]
      | error e =>
        simp [bind_apply, M.bind, getSt, hg, hr, liftEx, emit,
          countersIncrement, modifySt]
  · rw [if_neg hf]
    rfl

/-- A disabled `Command` feature makes the custom-command block a no-op. -/
theorem commandStep_off (env : Env) (fs : FeatureSet) (user : User)
    (other : String) (h : fs.contains Feature.Command = false) (st : St) :
    commandStep env fs user other st = (Except.ok (), st, []) := by
  unfold commandStep
  rw [h]
  rfl

/-- A disabled `Counter` feature makes the counter block a no-op. -/
theorem counterStep_off (env : Env) (fs : FeatureSet) (user : User)
    (other : String) (h : fs.contains Feature.Counter = false) (st : St) :
    counterStep env fs user other st = (Except.ok (), st, []) := by
  unfold counterStep
  rw [h]
  rfl

/-- With `Command` disabled the whole fallback is commands-store independent. -/
theorem fallbackArm_cmdDb (env : Env) (fs : FeatureSet) (user : User)
    (other : String) (h : fs.contains Feature.Command = false) (st : St)
    (db : List CmdEntry) :
    fallbackArm env fs user other { st with commandsDb := db }
      = withCmdDb db (fallbackArm env fs user other st) := by
  unfold fallbackArm
  refine bind_transport_cmd _ _ db (fun st' => currencyStep_cmdDb env user other db st')
    (fun a st' => ?_) st
  refine bind_transport_cmd _ _ db (fun st'' => ?_)
    (fun b st'' => counterStep_cmdDb env fs user other db st'') st'
  rw [commandStep_off env fs user other h, commandStep_off env fs user other h]
  unfold withCmdDb
  rfl

/-- With `Counter` disabled the whole fallback is counters-store independent. -/
theorem fallbackArm_ctrDb (env : Env) (fs : FeatureSet) (user : User)
    (other : String) (h : fs.contains Feature.Counter = false) (st : St)
    (db : List CtrEntry) :
    fallbackArm env fs user other { st with countersDb := db }
      = withCtrDb db (fallbackArm env fs user other st) := by
  unfold fallbackArm
  refine bind_transport_ctr _ _ db (fun st' => currencyStep_ctrDb env user other db st')
    (fun a st' => ?_) st
  refine bind_transport_ctr _ _ db (fun st'' => commandStep_ctrDb env fs user other db st'')
    (fun b st'' => ?_) st'
  rw [counterStep_off env fs user other h, counterStep_off env fs user other h]
  unfold withCtrDb
  rfl

/-- With `BadWords` disabled the moderation decision never reads the bad-words
store. -/
theorem sbd_badwords_indep (env : Env) (fs : FeatureSet) (m : Message)
    (message : String) (st : St) (db : List (String × Option String))
    (h : fs.contains Feature.BadWords = false) :
    should_be_deleted env fs m message { st with badWordsDb := db }
      = should_be_deleted env fs m message st := by
  unfold should_be_deleted
  rw [h]
  rfl

/-- With `UrlWhitelist` disabled the moderation decision never reads the host
whitelist. -/
theorem sbd_whitelist_indep (env : Env) (fs : FeatureSet) (m : Message)
    (message : String) (st : St) (hosts : List String)
    (h : fs.contains Feature.UrlWhitelist = false) :
    should_be_deleted { env with whitelistedHosts := hosts } fs m message st
      = should_be_deleted env fs m message st := by
  unfold should_be_deleted
  rw [h]
  rfl

/-- C1 counterexample: the `counter` administration branch is not gated by the
`Counter` feature — on a channel with an empty feature set, `!counter list`
still runs `handle_counter` and reads the counter store (the reply lists the
stored counters). -/
theorem c1_counter_ungated_counterexample :
    ([] : FeatureSet).contains Feature.Counter = false ∧
    process_command_inner envW [] (Words.new "list") userW "counter" stW =
      (Except.ok (), stW,
       [Effect.privmsg "#chan" ("alice" ++ " -> " ++
          ("Custom counters: " ++ "!cnt"))]) := by
  exact ⟨by decide, by rfl⟩

/-- C1 (amended): the FeatureSet gates every feature-specific branch except
counter administration (which is always available): each gated command arm
falls through to the fallback when its flag is absent; the fallback's
custom-command and counter blocks neither read nor mutate their stores when
their flags are absent; and the moderation pipeline reads neither the
bad-words store nor the host whitelist when the corresponding flag is
absent. -/
theorem c1_feature_gating_amended (env : Env) (fs : FeatureSet) (it : Words)
    (user : User) (m : Message) (message other : String) (st : St) :
    (fs.contains Feature.Song = false →
      process_command_inner env fs it user "song"
        = fallbackArm env fs user "song") ∧
    (fs.contains Feature.Command = false →
      process_command_inner env fs it user "command"
        = fallbackArm env fs user "command") ∧
    (fs.contains Feature.AfterStream = false →
      process_command_inner env fs it user "afterstream"
        = fallbackArm env fs user "afterstream") ∧
    (fs.contains Feature.BadWords = false →
      process_command_inner env fs it user "badword"
        = fallbackArm env fs user "badword") ∧
    (fs.contains Feature.Admin = false →
      process_command_inner env fs it user "uptime"
        = fallbackArm env fs user "uptime" ∧
      process_command_inner env fs it user "title"
        = fallbackArm env fs user "title" ∧
      process_command_inner env fs it user "game"
        = fallbackArm env fs user "game") ∧
    (fs.contains Feature.Command = false → ∀ db,
      fallbackArm env fs user other { st with commandsDb := db }
        = withCmdDb db (fallbackArm env fs user other st)) ∧
    (fs.contains Feature.Counter = false → ∀ db,
      fallbackArm env fs user other { st with countersDb := db }
        = withCtrDb db (fallbackArm env fs user other st)) ∧
    (fs.contains Feature.BadWords = false → ∀ db,
      should_be_deleted env fs m message { st with badWordsDb := db }
        = should_be_deleted env fs m message st) ∧
    (fs.contains Feature.UrlWhitelist = false → ∀ hosts,
      should_be_deleted { env with whitelistedHosts := hosts } fs m message st
        = should_be_deleted env fs m message st) := by
  refine ⟨?_, ?_, ?_, ?_, ?_,
    fun h db => fallbackArm_cmdDb env fs user other h st db,
    fun h db => fallbackArm_ctrDb env fs user other h st db,
    fun h db => sbd_badwords_indep env fs m message st db h,
    fun h hosts => sbd_whitelist_indep env fs m message st hosts h⟩
  · intro h
    unfold process_command_inner
    rw [if_neg (by decide : ¬("song" : String) = "ping"), if_pos rfl, h]
    simp
  · intro h
    unfold process_command_inner
    rw [if_neg (by decide : ¬("command" : String) = "ping"),
      if_neg (by decide : ¬("command" : String) = "song"), if_pos rfl, h]
    simp
  · intro h
    unfold process_command_inner
    rw [if_neg (by decide : ¬("afterstream" : String) = "ping"),
      if_neg (by decide : ¬("afterstream" : String) = "song"),
      if_neg (by decide : ¬("afterstream" : String) = "command"),
      if_neg (by decide : ¬("afterstream" : String) = "counter"), if_pos rfl, h]
    simp
  · intro h
    unfold process_command_inner
    rw [if_neg (by decide : ¬("badword" : String) = "ping"),
      if_neg (by decide : ¬("badword" : String) = "song"),
      if_neg (by decide : ¬("badword" : String) = "command"),
      if_neg (by decide : ¬("badword" : String) = "counter"),
      if_neg (by decide : ¬("badword" : String) = "afterstream"), if_pos rfl, h]
    simp
  · intro h
    refine ⟨?_, ?_, ?_⟩
    · unfold process_command_inner
      rw [if_neg (by decide : ¬("uptime" : String) = "ping"),
        if_neg (by decide : ¬("uptime" : String) = "song"),
        if_neg (by decide : ¬("uptime" : String) = "command"),
        if_neg (by decide : ¬("uptime" : String) = "counter"),
        if_neg (by decide : ¬("uptime" : String) = "afterstream"),
        if_neg (by decide : ¬("uptime" : String) = "badword"), if_pos rfl, h]
      simp
    · unfold process_command_inner
      rw [if_neg (by decide : ¬("title" : String) = "ping"),
        if_neg (by decide : ¬("title" : String) = "song"),
        if_neg (by decide : ¬("title" : String) = "command"),
        if_neg (by decide : ¬("title" : String) = "counter"),
        if_neg (by decide : ¬("title" : String) = "afterstream"),
        if_neg (by decide : ¬("title" : String) = "badword"),
        if_neg (by decide : ¬("title" : String) = "uptime"), if_pos rfl, h]
      simp
    · unfold process_command_inner
      rw [if_neg (by decide : ¬("game" : String) = "ping"),
        if_neg (by decide : ¬("game" : String) = "song"),
        if_neg (by decide : ¬("game" : String) = "command"),
        if_neg (by decide : ¬("game" : String) = "counter"),
        if_neg (by decide : ¬("game" : String) = "afterstream"),
        if_neg (by decide : ¬("game" : String) = "badword"),
        if_neg (by decide : ¬("game" : String) = "uptime"),
        if_neg (by decide : ¬("game" : String) = "title"), if_pos rfl, h]
      simp

theorem c1_feature_gating_amended_witness :
    ([] : FeatureSet).contains Feature.Song = false ∧
    ([] : FeatureSet).contains Feature.Counter = false ∧
    process_command_inner envW [] (Words.mk []) userW "song"
      = fallbackArm envW [] userW "song" ∧
    process_command_inner envW [] (Words.mk []) userW "command"
      = fallbackArm envW [] userW "command" ∧
    process_command_inner envW [] (Words.mk []) userW "afterstream"
      = fallbackArm envW [] userW "afterstream" ∧
    process_command_inner envW [] (Words.mk []) userW "badword"
      = fallbackArm envW [] userW "badword" ∧
    process_command_inner envW [] (Words.mk []) userW "uptime"
      = fallbackArm envW [] userW "uptime" ∧
    process_command_inner envW [] (Words.mk []) userW "title"
      = fallbackArm envW [] userW "title" ∧
    process_command_inner envW [] (Words.mk []) userW "game"
      = fallbackArm envW [] userW "game" ∧
    fallbackArm envW [] userW "zzz" { stW with commandsDb := [] }
      = withCmdDb [] (fallbackArm envW [] userW "zzz" stW) ∧
    fallbackArm envW [] userW "zzz" { stW with countersDb := [] }
      = withCtrDb [] (fallbackArm envW [] userW "zzz" stW) ∧
    should_be_deleted envW [] mW "a x b" { stW with badWordsDb := [] }
      = should_be_deleted envW [] mW "a x b" stW ∧
    should_be_deleted { envW with whitelistedHosts := [] } [] mW "a x b" stW
      = should_be_deleted envW [] mW "a x b" stW := by
  have H := c1_feature_gating_amended envW [] (Words.mk []) userW mW "a x b"
    "zzz" stW
  exact ⟨by decide, by decide,
    H.1 (by decide), H.2.1 (by decide), H.2.2.1 (by decide),
    H.2.2.2.1 (by decide),
    (H.2.2.2.2.1 (by decide)).1, (H.2.2.2.2.1 (by decide)).2.1,
    (H.2.2.2.2.1 (by decide)).2.2,
    H.2.2.2.2.2.1 (by decide) [], H.2.2.2.2.2.2.1 (by decide) [],
    H.2.2.2.2.2.2.2.1 (by decide) [], H.2.2.2.2.2.2.2.2 (by decide) []⟩
